import Mathlib

/-
  Verification of the Percolator client-side protocol layer
  (slab codec + instruction ABI + transaction-orchestration client).

  Shallow embedding of:
  - src/lib/percolator/client.ts        (PercolatorClient)
  - src/unnamed/part_002                (createPercolatorMarket saga)
  and, modelled from the spec where the module is not present under src/
  (only its callers and re-export declarations are):
  - src/lib/percolator/abi/errors.ts        (ErrorDecoder)
  - src/lib/percolator/abi/instructions.ts  (InstructionAbi)
  - src/lib/percolator/solana/slab.ts       (SlabCodec)
  - src/lib/percolator/solana/pda.ts        (PdaDeriver)

  Public keys are modelled as natural numbers; byte buffers as lists of
  naturals below 256; JavaScript bigint as Int; fallible collaborator
  calls as an explicit Outcome environment.
-/

namespace Percolator

/-- Public keys are modelled as natural numbers (32-byte values). -/
abbrev Pubkey := Nat

-- ============================================================================
-- ErrorDecoder (modelled from the spec)
-- ============================================================================

/-- Decoded program error, as produced by the error decoder:
a numeric code, a symbolic name, and an optional human hint. -/
structure DecodedError where
  code : Nat
  name : String
  hint : Option String
deriving DecidableEq, Repr

/-- Modelled from the spec: the static code-to-name/hint table of
src/lib/percolator/abi/errors.ts, which is not present under src/.
The spec (4.5, 7) names the common failure classes (insufficient
collateral, stale oracle, account not found, margin breach); concrete
codes are representative. -/
def ERROR_TABLE : List (Nat × String × Option String) :=
  [ (1, "InsufficientCollateral", some "Deposit more collateral before retrying"),
    (2, "StaleOracle", some "Crank the market or push a fresh oracle price"),
    (3, "AccountNotFound", some "Initialize the account first"),
    (4, "MarginBreach", some "Reduce position size or add collateral"),
    (5, "SlabWrongAdmin", none),
    (6, "InvalidIndex", none) ]

/-- Hexadecimal digit value of a character, if any. -/
def hexDigitVal (c : Char) : Option Nat :=
  if '0' ≤ c ∧ c ≤ '9' then some (c.toNat - '0'.toNat)
  else if 'a' ≤ c ∧ c ≤ 'f' then some (c.toNat - 'a'.toNat + 10)
  else if 'A' ≤ c ∧ c ≤ 'F' then some (c.toNat - 'A'.toNat + 10)
  else none

/-- Accumulate leading hexadecimal digits, stopping at the first
non-hex character. -/
def hexAccum : List Nat → Nat → List Char → Nat
  | _, acc, [] => acc
  | seen, acc, c :: rest =>
    match hexDigitVal c with
    | none => acc
    | some d => hexAccum (d :: seen) (16 * acc + d) rest

/-- Parse a leading hexadecimal number; fails when the first character
is not a hex digit. -/
def parseHexPrefix (cs : List Char) : Option Nat :=
  match cs with
  | [] => none
  | c :: rest =>
    match hexDigitVal c with
    | none => none
    | some d => some (hexAccum [d] d rest)

/-- Modelled from the spec: the fixed textual marker preceding the
numeric error code in program execution logs (4.5). -/
def ERROR_MARKER : String := "custom program error: 0x"

/-- Modelled from the spec: scan one log line for the failure marker and
extract the hexadecimal code following it. -/
def extractCodeFromLine (line : String) : Option Nat :=
  match line.splitOn ERROR_MARKER with
  | _ :: afterMarker :: _ => parseHexPrefix afterMarker.toList
  | _ => none

/-- Modelled from the spec: parseErrorFromLogs of
src/lib/percolator/abi/errors.ts (not present under src/). Scans the
log lines for the marker, maps the recovered code through the static
table, and returns null when no recognizable failure marker is present
or the code is not in the table (4.5). -/
def parseErrorFromLogs (logs : List String) : Option DecodedError :=
  match logs.findSome? extractCodeFromLine with
  | none => none
  | some code =>
    (ERROR_TABLE.find? (fun e => e.1 == code)).map
      (fun e => ⟨e.1, e.2.1, e.2.2⟩)

-- ============================================================================
-- sendTransaction (src/lib/percolator/client.ts, lines 480-527)
-- ============================================================================

/-- Result shape of every transaction-producing operation
(interface TxResult of client.ts). -/
structure TxResult where
  signature : String
  error : Option String
  hint : Option String
deriving DecidableEq, Repr

/-- Outcome of one awaited collaborator call: a value, or a thrown
exception carrying its message. -/
inductive Outcome (α : Type) where
  | ok (val : α)
  | thrown (msg : String)
deriving DecidableEq, Repr

/-- Latest blockhash as returned by the chain collaborator. -/
structure LatestBlockhash where
  blockhash : String
  lastValidBlockHeight : Nat
deriving DecidableEq, Repr

/-- Environment for one sendTransaction call: the outcome of each
network/wallet collaborator call, in program order.  The chain-reported
execution error (confirmation.value.err) and its JSON rendering are
modelled as the same string; txLogs models getTransaction, whose result
may be null (txInfo?.meta?.logMessages ?? []). -/
structure SendEnv where
  latestBlockhash : Outcome LatestBlockhash
  signedTx : Outcome Unit
  sendRawResult : Outcome String
  confirmResult : Outcome (Option String)
  txLogs : Outcome (Option (List String))
deriving DecidableEq, Repr

/-- Rendering of a decoded program error in the failure result:
mirrors the template string with the name and the hexadecimal code. -/
def renderDecoded (d : DecodedError) : String :=
  d.name ++ " (0x" ++ String.mk (Nat.toDigits 16 d.code) ++ ")"

/-- PercolatorClient.sendTransaction (client.ts lines 480-527): attach
latest blockhash, sign, submit, await confirmation; on success return
the signature with no error; on a confirmed execution error fetch the
transaction logs, run parseErrorFromLogs and return a structured
failure; any thrown exception is caught and returned as a result with
an empty signature.  Total function: it never throws. -/
def sendTransaction (env : SendEnv) : TxResult :=
  match env.latestBlockhash with
  | .thrown m => ⟨"", some m, none⟩
  | .ok _ =>
    match env.signedTx with
    | .thrown m => ⟨"", some m, none⟩
    | .ok _ =>
      match env.sendRawResult with
      | .thrown m => ⟨"", some m, none⟩
      | .ok signature =>
        match env.confirmResult with
        | .thrown m => ⟨"", some m, none⟩
        | .ok none => ⟨signature, none, none⟩
        | .ok (some chainErr) =>
          match env.txLogs with
          | .thrown m => ⟨"", some m, none⟩
          | .ok logsOpt =>
            let logs := logsOpt.getD []
            match parseErrorFromLogs logs with
            | some parsed => ⟨signature, some (renderDecoded parsed), parsed.hint⟩
            | none => ⟨signature, some chainErr, none⟩

/-- One observable collaborator call inside sendTransaction. -/
inductive SendStep where
  | fetchBlockhash
  | signTx
  | submitTx
  | confirmTx
  | fetchLogs
deriving DecidableEq, Repr

/-- The sequence of collaborator calls performed by one
sendTransaction call, in order (same control flow as sendTransaction). -/
def sendTransactionTrace (env : SendEnv) : List SendStep :=
  match env.latestBlockhash with
  | .thrown _ => [.fetchBlockhash]
  | .ok _ =>
    match env.signedTx with
    | .thrown _ => [.fetchBlockhash, .signTx]
    | .ok _ =>
      match env.sendRawResult with
      | .thrown _ => [.fetchBlockhash, .signTx, .submitTx]
      | .ok _ =>
        match env.confirmResult with
        | .thrown _ => [.fetchBlockhash, .signTx, .submitTx, .confirmTx]
        | .ok none => [.fetchBlockhash, .signTx, .submitTx, .confirmTx]
        | .ok (some _) =>
          [.fetchBlockhash, .signTx, .submitTx, .confirmTx, .fetchLogs]

-- ============================================================================
-- SlabCodec (modelled from the spec)
-- ============================================================================

/-- Account kind tag: trading user or liquidity provider (spec 3). -/
inductive AccountKind where
  | user
  | lp
deriving DecidableEq, Repr

/-- One participant account record of the slab's account table
(spec 3): owner key, signed capital, accumulated pnl, signed position
size, entry price (1e6 fixed point), and for LP kind the matcher
program/context reference. -/
structure Account where
  kind : AccountKind
  owner : Pubkey
  capital : Int
  pnl : Int
  positionSize : Int
  entryPrice : Int
  matcherProgram : Pubkey
  matcherContext : Pubkey
deriving DecidableEq, Repr

instance : Inhabited Account := ⟨⟨.user, 0, 0, 0, 0, 0, 0, 0⟩⟩

/-- Market configuration view of the slab (spec 3); the fields the
client reads are collateralMint, vaultPubkey and indexFeedId. -/
structure MarketConfig where
  admin : Pubkey
  collateralMint : Pubkey
  vaultPubkey : Pubkey
  indexFeedId : Pubkey
  oracleAuthority : Pubkey
  maintenanceMarginBps : Nat
  initialMarginBps : Nat
  tradingFeeBps : Nat
  maxAccounts : Nat
deriving DecidableEq, Repr

instance : Inhabited MarketConfig := ⟨⟨0, 0, 0, 0, 0, 0, 0, 0, 0⟩⟩

/-- Engine state view of the slab (spec 3): running aggregates,
read-only for the client. -/
structure EngineState where
  insuranceFund : Int
  lastCrankSlot : Nat
  markPriceE6 : Int
deriving DecidableEq, Repr

/-- Modelled from the spec: the byte-level slab codec
(src/lib/percolator/solana/slab.ts) is not present under src/, so the
fetched slab buffer is modelled structurally as its decoded content:
header-validated config, engine state, the used-slot bitmap and the
fixed-capacity account table (spec 3, 4.1).  bitmap and accounts have
the table's capacity as their common length. -/
structure Slab where
  config : MarketConfig
  engine : EngineState
  bitmap : List Bool
  accounts : List Account
deriving DecidableEq, Repr

/-- Modelled from the spec: parseConfig returns the typed market
configuration snapshot of the slab buffer (4.1). -/
def parseConfig (s : Slab) : MarketConfig := s.config

/-- Modelled from the spec: parseEngine returns the typed engine-state
snapshot of the slab buffer (4.1). -/
def parseEngine (s : Slab) : EngineState := s.engine

/-- Modelled from the spec: pure bit-scan over the fixed-capacity
used-slot bitmap (4.1). -/
def isAccountUsed (bitmap : List Bool) (idx : Nat) : Bool :=
  bitmap.getD idx false

/-- Modelled from the spec: the indices of all used slots, in
increasing slot order (4.1). -/
def parseUsedIndices (s : Slab) : List Nat :=
  (List.range s.bitmap.length).filter (fun i => isAccountUsed s.bitmap i)

/-- Modelled from the spec: parseAccount decodes the account record at
a slot index (4.1); out-of-range indices fail rather than read out of
bounds. -/
def parseAccount (s : Slab) (idx : Nat) : Option Account :=
  s.accounts.get? idx

/-- Modelled from the spec: parseAllAccounts returns only the slots
marked used in the bitmap, each paired with its slot index, in
increasing slot order (4.1, 8). -/
def parseAllAccounts (s : Slab) : List (Nat × Account) :=
  (parseUsedIndices s).filterMap (fun i => (parseAccount s i).map (fun a => (i, a)))

-- ============================================================================
-- PdaDeriver / ATA (pda.ts modelled from the spec; ata.ts from src)
-- ============================================================================

/-- The chain's program-address derivation is a hash of the seed bytes
and the program id; it is modelled as an injective deterministic
pairing of the seeds with the program id (no claim depends on the hash
values, only on determinism). -/
def findProgramAddress (seeds : List Nat) (programId : Pubkey) : Pubkey × Nat :=
  (Nat.pair programId (seeds.foldr Nat.pair 0), 255)

/-- Domain-separation literals for the two PDA families, modelled as
distinct seed constants. -/
def VAULT_SEED : Nat := 1
def LP_SEED : Nat := 2

/-- Modelled from the spec: deriveVaultAuthority of
src/lib/percolator/solana/pda.ts (not present under src/) — a
deterministic function of the program id, the slab address and a
domain-separation literal (4.4). -/
def deriveVaultAuthority (programId : Pubkey) (slab : Pubkey) : Pubkey × Nat :=
  findProgramAddress [VAULT_SEED, slab] programId

/-- Modelled from the spec: deriveLpPda of
src/lib/percolator/solana/pda.ts (not present under src/) — also a
function of the LP slot index (4.4). -/
def deriveLpPda (programId : Pubkey) (slab : Pubkey) (lpIndex : Nat) : Pubkey × Nat :=
  findProgramAddress [LP_SEED, slab, lpIndex] programId

/-- Well-known constant addresses (token program, associated-token
program, clock, rent, system program), modelled as distinguished
constants. -/
def TOKEN_PROGRAM_ID : Pubkey := 101
def ASSOCIATED_TOKEN_PROGRAM_ID : Pubkey := 102
def CLOCK_SYSVAR : Pubkey := 103
def RENT_SYSVAR : Pubkey := 104
def SYSTEM_PROGRAM : Pubkey := 105

/-- getAta (src/lib/percolator/solana/ata.ts): associated token
address of an owner and mint, derived from the seeds
[owner, tokenProgram, mint] under the associated-token program. -/
def getAta (owner : Pubkey) (mint : Pubkey) : Pubkey :=
  (findProgramAddress [owner, TOKEN_PROGRAM_ID, mint] ASSOCIATED_TOKEN_PROGRAM_ID).1

-- ============================================================================
-- PercolatorClient state and read accessors (client.ts lines 107-182)
-- ============================================================================

/-- The client's cached mutable state: the lazily-populated slab
buffer and the parsed market configuration (client.ts lines 111-112;
both start as null). -/
structure ClientState where
  slabData : Option Slab
  marketConfig : Option MarketConfig
deriving DecidableEq, Repr

/-- The initial client state: no cached slab, no cached config. -/
def initialClientState : ClientState := ⟨none, none⟩

/-- The account-bytes fetch collaborator for one call: the slab the
chain returns for fetchSlab(connection, slabPubkey). -/
structure FetchEnv where
  fetched : Slab
deriving Repr

/-- Immutable client configuration (client.ts constructor). -/
structure ClientCfg where
  programId : Pubkey
  slabPubkey : Pubkey
deriving DecidableEq, Repr

/-- refreshSlab (client.ts lines 124-128): fetch the slab, replace
both cached fields wholesale, return the buffer.  The third component
counts network fetches performed by the call. -/
def refreshSlab (env : FetchEnv) (_s : ClientState) : Slab × ClientState × Nat :=
  (env.fetched, ⟨some env.fetched, some (parseConfig env.fetched)⟩, 1)

/-- getMarketConfig (client.ts lines 130-133): refresh only when no
parsed config is cached. -/
def getMarketConfig (env : FetchEnv) (s : ClientState) : Option MarketConfig × ClientState × Nat :=
  if s.marketConfig.isNone then
    let r := refreshSlab env s
    (r.2.1.marketConfig, r.2.1, r.2.2)
  else
    (s.marketConfig, s, 0)

/-- getEngineState (client.ts lines 135-138): refresh only when no
slab buffer is cached, then parse the engine view. -/
def getEngineState (env : FetchEnv) (s : ClientState) : Option EngineState × ClientState × Nat :=
  if s.slabData.isNone then
    let r := refreshSlab env s
    (r.2.1.slabData.map parseEngine, r.2.1, r.2.2)
  else
    (s.slabData.map parseEngine, s, 0)

/-- Typed market snapshot returned by getMarketInfo. -/
structure MarketInfo where
  config : MarketConfig
  engine : EngineState
  accounts : List (Nat × Account)
deriving DecidableEq, Repr

/-- getMarketInfo (client.ts lines 140-147): unconditionally refresh
the slab, then parse config, engine and all accounts from it. -/
def getMarketInfo (env : FetchEnv) (s : ClientState) : MarketInfo × ClientState × Nat :=
  let r := refreshSlab env s
  (⟨parseConfig r.1, parseEngine r.1, parseAllAccounts r.1⟩, r.2.1, r.2.2)

/-- findUserAccount (client.ts lines 149-154): unconditionally refresh
the slab, then return the first parsed account whose owner equals the
given key. -/
def findUserAccount (env : FetchEnv) (owner : Pubkey) (s : ClientState) :
    Option (Nat × Account) × ClientState × Nat :=
  let r := refreshSlab env s
  ((parseAllAccounts r.1).find? (fun a => a.2.owner == owner), r.2.1, r.2.2)

/-- Derived per-position view returned by getAllPositions.  The
JavaScript Number division for leverage is modelled as exact rational
division. -/
structure PositionInfo where
  index : Nat
  kind : AccountKind
  owner : Pubkey
  capital : Int
  pnl : Int
  positionSize : Int
  entryPrice : Int
  leverage : ℚ
deriving DecidableEq, Repr

/-- abs128 (client.ts lines 542-544): absolute value for i128 bigint. -/
def abs128 (val : Int) : Int :=
  if val < 0 then -val else val

/-- The filter/map body of getAllPositions (client.ts lines 161-181)
applied to the parsed accounts of a slab buffer: keep the accounts with
nonzero position size and compute notional and leverage.  bigint
division truncates toward zero, hence Int.tdiv. -/
def positionsOf (data : Slab) : List PositionInfo :=
  ((parseAllAccounts data).filter (fun a => a.2.positionSize ≠ 0)).map
    (fun a =>
      let notional : Int :=
        if a.2.entryPrice > 0 then
          Int.tdiv (abs128 a.2.positionSize * a.2.entryPrice) 1000000
        else 0
      let leverage : ℚ :=
        if a.2.capital > 0 ∧ notional > 0 then
          (notional : ℚ) / (a.2.capital : ℚ)
        else 0
      { index := a.1
        kind := a.2.kind
        owner := a.2.owner
        capital := a.2.capital
        pnl := a.2.pnl
        positionSize := a.2.positionSize
        entryPrice := a.2.entryPrice
        leverage := leverage })

/-- getAllPositions (client.ts lines 156-182): unconditionally refresh
the slab, then build the derived position views. -/
def getAllPositions (env : FetchEnv) (s : ClientState) :
    List PositionInfo × ClientState × Nat :=
  let r := refreshSlab env s
  (positionsOf r.1, r.2.1, r.2.2)

-- ============================================================================
-- InstructionAbi (modelled from the spec)
-- ============================================================================

/-- The closed set of supported instruction kinds (spec 4.2). -/
inductive IxKind where
  | initMarket
  | initUser
  | initLP
  | depositCollateral
  | withdrawCollateral
  | tradeCpi
  | tradeNoCpi
  | keeperCrank
  | liquidateAtOracle
  | closeAccount
  | topUpInsurance
  | setOracleAuthority
  | pushOraclePrice
deriving DecidableEq, Repr, Fintype

/-- Modelled from the spec: the registered one-byte instruction
discriminant of each kind (src/lib/percolator/abi/instructions.ts is
not present under src/; the spec fixes uniqueness and first-byte
position, the concrete values are representative) (4.2, 8). -/
def IX_TAG : IxKind → Nat
  | .initMarket => 0
  | .initUser => 1
  | .initLP => 2
  | .depositCollateral => 3
  | .withdrawCollateral => 4
  | .tradeCpi => 5
  | .tradeNoCpi => 6
  | .keeperCrank => 7
  | .liquidateAtOracle => 8
  | .closeAccount => 9
  | .topUpInsurance => 10
  | .setOracleAuthority => 11
  | .pushOraclePrice => 12

/-- Fixed-width little-endian byte rendering of a natural number. -/
def leBytes (width : Nat) (n : Nat) : List Nat :=
  (List.range width).map (fun i => n / 256 ^ i % 256)

/-- 64-bit little-endian unsigned field. -/
def u64LE (n : Nat) : List Nat := leBytes 8 n

/-- 32-bit little-endian unsigned field (indices). -/
def u32LE (n : Nat) : List Nat := leBytes 4 n

/-- 16-bit little-endian unsigned field (bps parameters). -/
def u16LE (n : Nat) : List Nat := leBytes 2 n

/-- One-byte field (flags). -/
def u8 (n : Nat) : List Nat := [n % 256]

/-- 64-bit little-endian signed field, two's complement. -/
def i64LE (v : Int) : List Nat := leBytes 8 (Int.emod v (2 ^ 64)).toNat

/-- A public key as a 32-byte field. -/
def pubkeyBytes (pk : Pubkey) : List Nat := leBytes 32 pk

/-- InitMarket arguments (client.ts usage, part_002 lines 306-316). -/
structure InitMarketArgs where
  admin : Pubkey
  collateralMint : Pubkey
  indexFeedId : Nat
  maxStalenessSecs : Nat
  confFilterBps : Nat
  invert : Nat
  unitScale : Nat
  initialMarkPriceE6 : Nat
  maintenanceMarginBps : Nat
  initialMarginBps : Nat
  tradingFeeBps : Nat
  maxAccounts : Nat
  newAccountFee : Nat
  warmupPeriodSlots : Nat
  riskReductionThreshold : Nat
  maintenanceFeePerSlot : Nat
  maxCrankStalenessSlots : Nat
  liquidationFeeBps : Nat
  liquidationFeeCap : Nat
  liquidationBufferBps : Nat
  minLiquidationAbs : Nat
deriving DecidableEq, Repr

/-- InitUser arguments. -/
structure InitUserArgs where
  feePayment : Nat
deriving DecidableEq, Repr

/-- InitLP arguments. -/
structure InitLPArgs where
  matcherProgram : Pubkey
  matcherContext : Pubkey
  feePayment : Nat
deriving DecidableEq, Repr

/-- DepositCollateral arguments. -/
structure DepositCollateralArgs where
  userIdx : Nat
  amount : Nat
deriving DecidableEq, Repr

/-- WithdrawCollateral arguments. -/
structure WithdrawCollateralArgs where
  userIdx : Nat
  amount : Nat
deriving DecidableEq, Repr

/-- TradeCpi arguments. -/
structure TradeCpiArgs where
  lpIdx : Nat
  userIdx : Nat
  size : Int
deriving DecidableEq, Repr

/-- TradeNoCpi arguments. -/
structure TradeNoCpiArgs where
  lpIdx : Nat
  userIdx : Nat
  size : Int
deriving DecidableEq, Repr

/-- KeeperCrank arguments. -/
structure KeeperCrankArgs where
  callerIdx : Nat
  allowPanic : Bool
deriving DecidableEq, Repr

/-- LiquidateAtOracle arguments. -/
structure LiquidateAtOracleArgs where
  targetIdx : Nat
deriving DecidableEq, Repr

/-- CloseAccount arguments. -/
structure CloseAccountArgs where
  userIdx : Nat
deriving DecidableEq, Repr

/-- TopUpInsurance arguments. -/
structure TopUpInsuranceArgs where
  amount : Nat
deriving DecidableEq, Repr

/-- SetOracleAuthority arguments. -/
structure SetOracleAuthorityArgs where
  newAuthority : Pubkey
deriving DecidableEq, Repr

/-- PushOraclePrice arguments. -/
structure PushOraclePriceArgs where
  priceE6 : Nat
  timestamp : Nat
deriving DecidableEq, Repr

/-- Modelled from the spec: encodeInitMarket — leading discriminant,
then fixed-offset packed little-endian fields (4.2). -/
def encodeInitMarket (a : InitMarketArgs) : List Nat :=
  IX_TAG .initMarket ::
    (pubkeyBytes a.admin ++ pubkeyBytes a.collateralMint ++ pubkeyBytes a.indexFeedId ++
      u64LE a.maxStalenessSecs ++ u16LE a.confFilterBps ++ u8 a.invert ++ u8 a.unitScale ++
      u64LE a.initialMarkPriceE6 ++ u16LE a.maintenanceMarginBps ++ u16LE a.initialMarginBps ++
      u16LE a.tradingFeeBps ++ u64LE a.maxAccounts ++ u64LE a.newAccountFee ++
      u64LE a.warmupPeriodSlots ++ u64LE a.riskReductionThreshold ++
      u64LE a.maintenanceFeePerSlot ++ u64LE a.maxCrankStalenessSlots ++
      u16LE a.liquidationFeeBps ++ u64LE a.liquidationFeeCap ++
      u16LE a.liquidationBufferBps ++ u64LE a.minLiquidationAbs)

/-- Modelled from the spec: encodeInitUser (4.2). -/
def encodeInitUser (a : InitUserArgs) : List Nat :=
  IX_TAG .initUser :: u64LE a.feePayment

/-- Modelled from the spec: encodeInitLP (4.2). -/
def encodeInitLP (a : InitLPArgs) : List Nat :=
  IX_TAG .initLP ::
    (pubkeyBytes a.matcherProgram ++ pubkeyBytes a.matcherContext ++ u64LE a.feePayment)

/-- Modelled from the spec: encodeDepositCollateral (4.2). -/
def encodeDepositCollateral (a : DepositCollateralArgs) : List Nat :=
  IX_TAG .depositCollateral :: (u32LE a.userIdx ++ u64LE a.amount)

/-- Modelled from the spec: encodeWithdrawCollateral (4.2). -/
def encodeWithdrawCollateral (a : WithdrawCollateralArgs) : List Nat :=
  IX_TAG .withdrawCollateral :: (u32LE a.userIdx ++ u64LE a.amount)

/-- Modelled from the spec: encodeTradeCpi (4.2). -/
def encodeTradeCpi (a : TradeCpiArgs) : List Nat :=
  IX_TAG .tradeCpi :: (u32LE a.lpIdx ++ u32LE a.userIdx ++ i64LE a.size)

/-- Modelled from the spec: encodeTradeNoCpi (4.2). -/
def encodeTradeNoCpi (a : TradeNoCpiArgs) : List Nat :=
  IX_TAG .tradeNoCpi :: (u32LE a.lpIdx ++ u32LE a.userIdx ++ i64LE a.size)

/-- Modelled from the spec: encodeKeeperCrank (4.2). -/
def encodeKeeperCrank (a : KeeperCrankArgs) : List Nat :=
  IX_TAG .keeperCrank :: (u32LE a.callerIdx ++ u8 (if a.allowPanic then 1 else 0))

/-- Modelled from the spec: encodeLiquidateAtOracle (4.2). -/
def encodeLiquidateAtOracle (a : LiquidateAtOracleArgs) : List Nat :=
  IX_TAG .liquidateAtOracle :: u32LE a.targetIdx

/-- Modelled from the spec: encodeCloseAccount (4.2). -/
def encodeCloseAccount (a : CloseAccountArgs) : List Nat :=
  IX_TAG .closeAccount :: u32LE a.userIdx

/-- Modelled from the spec: encodeTopUpInsurance (4.2). -/
def encodeTopUpInsurance (a : TopUpInsuranceArgs) : List Nat :=
  IX_TAG .topUpInsurance :: u64LE a.amount

/-- Modelled from the spec: encodeSetOracleAuthority (4.2). -/
def encodeSetOracleAuthority (a : SetOracleAuthorityArgs) : List Nat :=
  IX_TAG .setOracleAuthority :: pubkeyBytes a.newAuthority

/-- Modelled from the spec: encodePushOraclePrice (4.2). -/
def encodePushOraclePrice (a : PushOraclePriceArgs) : List Nat :=
  IX_TAG .pushOraclePrice :: (u64LE a.priceE6 ++ u64LE a.timestamp)

-- ============================================================================
-- Transactions and per-operation builders (client.ts lines 188-474, 533-538)
-- ============================================================================

/-- One transaction instruction: either the compute-budget
set-compute-unit-limit instruction, or a program instruction carrying
its account list (addresses in template order; the signer/writable
flag templates live in the abi/accounts module, not present under
src/) and its encoded data. -/
inductive Instruction where
  | computeBudgetSetLimit (units : Nat)
  | programIx (programId : Pubkey) (keys : List Pubkey) (data : List Nat)
deriving DecidableEq, Repr

/-- PercolatorClient.buildTransaction (client.ts lines 533-538): a new
transaction holding the fixed 400,000-unit compute-budget instruction
followed by the single operation instruction. -/
def buildTransaction (ix : Instruction) : List Instruction :=
  [.computeBudgetSetLimit 400000, ix]

/-- buildInitUserTx (client.ts lines 188-204). -/
def buildInitUserTx (env : FetchEnv) (c : ClientCfg) (wallet : Pubkey) (feePayment : Nat)
    (s : ClientState) : List Instruction × ClientState × Nat :=
  let r := getMarketConfig env s
  let config := r.1.getD default
  let userAta := getAta wallet config.collateralMint
  let ixData := encodeInitUser ⟨feePayment⟩
  let keys := [wallet, c.slabPubkey, userAta, config.vaultPubkey, TOKEN_PROGRAM_ID]
  (buildTransaction (.programIx c.programId keys ixData), r.2.1, r.2.2)

/-- buildDepositTx (client.ts lines 206-223). -/
def buildDepositTx (env : FetchEnv) (c : ClientCfg) (wallet : Pubkey) (userIdx : Nat)
    (amount : Nat) (s : ClientState) : List Instruction × ClientState × Nat :=
  let r := getMarketConfig env s
  let config := r.1.getD default
  let userAta := getAta wallet config.collateralMint
  let ixData := encodeDepositCollateral ⟨userIdx, amount⟩
  let keys := [wallet, c.slabPubkey, userAta, config.vaultPubkey, TOKEN_PROGRAM_ID,
    CLOCK_SYSVAR]
  (buildTransaction (.programIx c.programId keys ixData), r.2.1, r.2.2)

/-- buildWithdrawTx (client.ts lines 225-245). -/
def buildWithdrawTx (env : FetchEnv) (c : ClientCfg) (wallet : Pubkey) (userIdx : Nat)
    (amount : Nat) (s : ClientState) : List Instruction × ClientState × Nat :=
  let r := getMarketConfig env s
  let config := r.1.getD default
  let userAta := getAta wallet config.collateralMint
  let vaultPda := (deriveVaultAuthority c.programId c.slabPubkey).1
  let ixData := encodeWithdrawCollateral ⟨userIdx, amount⟩
  let keys := [wallet, c.slabPubkey, config.vaultPubkey, userAta, vaultPda,
    TOKEN_PROGRAM_ID, CLOCK_SYSVAR, config.indexFeedId]
  (buildTransaction (.programIx c.programId keys ixData), r.2.1, r.2.2)

/-- buildTradeCpiTx (client.ts lines 247-275): unconditional refresh,
LP account lookup, LP PDA derivation. -/
def buildTradeCpiTx (env : FetchEnv) (c : ClientCfg) (wallet : Pubkey) (userIdx lpIdx : Nat)
    (size : Int) (matcherProgram matcherCtx : Pubkey) (s : ClientState) :
    List Instruction × ClientState × Nat :=
  let r := refreshSlab env s
  let config := parseConfig r.1
  let lpAccount := (parseAccount r.1 lpIdx).getD default
  let lpPda := (deriveLpPda c.programId c.slabPubkey lpIdx).1
  let ixData := encodeTradeCpi ⟨lpIdx, userIdx, size⟩
  let keys := [wallet, lpAccount.owner, c.slabPubkey, CLOCK_SYSVAR, config.indexFeedId,
    matcherProgram, matcherCtx, lpPda]
  (buildTransaction (.programIx c.programId keys ixData), r.2.1, r.2.2)

/-- buildTradeNoCpiTx (client.ts lines 277-300): lazy config read,
then an unconditional refresh and LP account lookup. -/
def buildTradeNoCpiTx (env : FetchEnv) (c : ClientCfg) (wallet : Pubkey) (userIdx lpIdx : Nat)
    (size : Int) (lpOwnerWallet : Option Pubkey) (s : ClientState) :
    List Instruction × ClientState × Nat :=
  let r0 := getMarketConfig env s
  let config := r0.1.getD default
  let r := refreshSlab env r0.2.1
  let lpAccount := (parseAccount r.1 lpIdx).getD default
  let ixData := encodeTradeNoCpi ⟨lpIdx, userIdx, size⟩
  let keys := [wallet, lpOwnerWallet.getD lpAccount.owner, c.slabPubkey, CLOCK_SYSVAR,
    config.indexFeedId]
  (buildTransaction (.programIx c.programId keys ixData), r.2.1, r0.2.2 + r.2.2)

/-- buildKeeperCrankTx (client.ts lines 302-316). -/
def buildKeeperCrankTx (env : FetchEnv) (c : ClientCfg) (wallet : Pubkey) (callerIdx : Nat)
    (s : ClientState) : List Instruction × ClientState × Nat :=
  let r := getMarketConfig env s
  let config := r.1.getD default
  let ixData := encodeKeeperCrank ⟨callerIdx, false⟩
  let keys := [wallet, c.slabPubkey, CLOCK_SYSVAR, config.indexFeedId]
  (buildTransaction (.programIx c.programId keys ixData), r.2.1, r.2.2)

/-- buildCloseAccountTx (client.ts lines 318-338). -/
def buildCloseAccountTx (env : FetchEnv) (c : ClientCfg) (wallet : Pubkey) (userIdx : Nat)
    (s : ClientState) : List Instruction × ClientState × Nat :=
  let r := getMarketConfig env s
  let config := r.1.getD default
  let userAta := getAta wallet config.collateralMint
  let vaultPda := (deriveVaultAuthority c.programId c.slabPubkey).1
  let ixData := encodeCloseAccount ⟨userIdx⟩
  let keys := [wallet, c.slabPubkey, config.vaultPubkey, userAta, vaultPda,
    TOKEN_PROGRAM_ID, CLOCK_SYSVAR, config.indexFeedId]
  (buildTransaction (.programIx c.programId keys ixData), r.2.1, r.2.2)

/-- buildInitMarketTx (client.ts lines 348-372): no cached state is
read or written; all accounts come from the arguments. -/
def buildInitMarketTx (c : ClientCfg) (wallet slabPubkey collateralMint vaultPubkey
    dummyAtaPubkey : Pubkey) (marketArgs : InitMarketArgs) (s : ClientState) :
    List Instruction × ClientState × Nat :=
  let ixData := encodeInitMarket marketArgs
  let keys := [wallet, slabPubkey, collateralMint, vaultPubkey, TOKEN_PROGRAM_ID,
    CLOCK_SYSVAR, RENT_SYSVAR, dummyAtaPubkey, SYSTEM_PROGRAM]
  (buildTransaction (.programIx c.programId keys ixData), s, 0)

/-- buildInitLpTx (client.ts lines 377-404). -/
def buildInitLpTx (c : ClientCfg) (wallet slabPubkey collateralMint vaultPubkey
    matcherProgram matcherContext : Pubkey) (feePayment : Nat) (s : ClientState) :
    List Instruction × ClientState × Nat :=
  let userAta := getAta wallet collateralMint
  let ixData := encodeInitLP ⟨matcherProgram, matcherContext, feePayment⟩
  let keys := [wallet, slabPubkey, userAta, vaultPubkey, TOKEN_PROGRAM_ID]
  (buildTransaction (.programIx c.programId keys ixData), s, 0)

/-- buildSetOracleAuthorityTx (client.ts lines 410-424). -/
def buildSetOracleAuthorityTx (c : ClientCfg) (wallet slabPubkey newAuthority : Pubkey)
    (s : ClientState) : List Instruction × ClientState × Nat :=
  let ixData := encodeSetOracleAuthority ⟨newAuthority⟩
  let keys := [wallet, slabPubkey]
  (buildTransaction (.programIx c.programId keys ixData), s, 0)

/-- buildPushOraclePriceTx (client.ts lines 430-448). -/
def buildPushOraclePriceTx (c : ClientCfg) (wallet slabPubkey : Pubkey)
    (priceE6 timestamp : Nat) (s : ClientState) : List Instruction × ClientState × Nat :=
  let ixData := encodePushOraclePrice ⟨priceE6, timestamp⟩
  let keys := [wallet, slabPubkey]
  (buildTransaction (.programIx c.programId keys ixData), s, 0)

/-- buildTopUpInsuranceTx (client.ts lines 453-474). -/
def buildTopUpInsuranceTx (c : ClientCfg) (wallet slabPubkey collateralMint vaultPubkey : Pubkey)
    (amount : Nat) (s : ClientState) : List Instruction × ClientState × Nat :=
  let userAta := getAta wallet collateralMint
  let ixData := encodeTopUpInsurance ⟨amount⟩
  let keys := [wallet, slabPubkey, userAta, vaultPubkey, TOKEN_PROGRAM_ID]
  (buildTransaction (.programIx c.programId keys ixData), s, 0)

-- ============================================================================
-- sendTransaction as a client operation, and the unified operation step
-- ============================================================================

/-- sendTransaction as a client-level operation: the source method
(client.ts lines 480-527) reads only the connection and the wallet and
assigns neither cached field, so the cached state passes through
unchanged. -/
def clientSendTransaction (senv : SendEnv) (s : ClientState) : TxResult × ClientState :=
  (sendTransaction senv, s)

/-- One public PercolatorClient operation together with its
arguments. -/
inductive ClientOp where
  | refreshSlabOp
  | getMarketConfigOp
  | getEngineStateOp
  | getMarketInfoOp
  | findUserAccountOp (owner : Pubkey)
  | getAllPositionsOp
  | initUserTx (wallet : Pubkey) (feePayment : Nat)
  | depositTx (wallet : Pubkey) (userIdx : Nat) (amount : Nat)
  | withdrawTx (wallet : Pubkey) (userIdx : Nat) (amount : Nat)
  | tradeCpiTx (wallet : Pubkey) (userIdx lpIdx : Nat) (size : Int)
      (matcherProgram matcherCtx : Pubkey)
  | tradeNoCpiTx (wallet : Pubkey) (userIdx lpIdx : Nat) (size : Int)
      (lpOwnerWallet : Option Pubkey)
  | keeperCrankTx (wallet : Pubkey) (callerIdx : Nat)
  | closeAccountTx (wallet : Pubkey) (userIdx : Nat)
  | initMarketTx (wallet slab mint vault dummy : Pubkey) (args : InitMarketArgs)
  | initLpTx (wallet slab mint vault mp mctx : Pubkey) (feePayment : Nat)
  | setOracleAuthorityTx (wallet slab newAuthority : Pubkey)
  | pushOraclePriceTx (wallet slab : Pubkey) (priceE6 timestamp : Nat)
  | topUpInsuranceTx (wallet slab mint vault : Pubkey) (amount : Nat)
  | sendTx (senv : SendEnv)
deriving DecidableEq, Repr

/-- The cached-state effect of each PercolatorClient operation: the
state component of the corresponding source method. -/
def clientStep (env : FetchEnv) (c : ClientCfg) : ClientOp → ClientState → ClientState
  | .refreshSlabOp, s => (refreshSlab env s).2.1
  | .getMarketConfigOp, s => (getMarketConfig env s).2.1
  | .getEngineStateOp, s => (getEngineState env s).2.1
  | .getMarketInfoOp, s => (getMarketInfo env s).2.1
  | .findUserAccountOp owner, s => (findUserAccount env owner s).2.1
  | .getAllPositionsOp, s => (getAllPositions env s).2.1
  | .initUserTx w fp, s => (buildInitUserTx env c w fp s).2.1
  | .depositTx w i amt, s => (buildDepositTx env c w i amt s).2.1
  | .withdrawTx w i amt, s => (buildWithdrawTx env c w i amt s).2.1
  | .tradeCpiTx w ui li sz mp mc, s => (buildTradeCpiTx env c w ui li sz mp mc s).2.1
  | .tradeNoCpiTx w ui li sz lo, s => (buildTradeNoCpiTx env c w ui li sz lo s).2.1
  | .keeperCrankTx w ci, s => (buildKeeperCrankTx env c w ci s).2.1
  | .closeAccountTx w i, s => (buildCloseAccountTx env c w i s).2.1
  | .initMarketTx w sl mi va du args, s => (buildInitMarketTx c w sl mi va du args s).2.1
  | .initLpTx w sl mi va mp mc fp, s => (buildInitLpTx c w sl mi va mp mc fp s).2.1
  | .setOracleAuthorityTx w sl na, s => (buildSetOracleAuthorityTx c w sl na s).2.1
  | .pushOraclePriceTx w sl pe ts, s => (buildPushOraclePriceTx c w sl pe ts s).2.1
  | .topUpInsuranceTx w sl mi va amt, s => (buildTopUpInsuranceTx c w sl mi va amt s).2.1
  | .sendTx senv, s => (clientSendTransaction senv s).2

/-- The cache-coherence invariant of the client state: the parsed
config is exactly the parse of the cached buffer (both absent
initially, both replaced together by a refresh). -/
def cacheCoherent (s : ClientState) : Prop :=
  s.marketConfig = s.slabData.map parseConfig

-- ============================================================================
-- Market-bootstrap saga (src/unnamed/part_002, createPercolatorMarket)
-- ============================================================================

/-- Environment for one createPercolatorMarket run: the generated
keypairs and the outcome of each step's chain interaction.  The three
raw-send steps (slab creation, vault ATA creation, matcher-context
creation) either succeed or throw (Option String carries the thrown
message); the four client steps (InitMarket, SetOracleAuthority,
PushOraclePrice, InitLP) go through sendTransaction, which never
throws and yields a TxResult. -/
structure SagaEnv where
  slabPubkey : Pubkey
  matcherCtxPubkey : Pubkey
  createSlabThrow : Option String
  createVaultThrow : Option String
  initMarketResult : TxResult
  setOracleResult : TxResult
  pushPriceResult : TxResult
  createMatcherThrow : Option String
  initLpResult : TxResult
deriving DecidableEq, Repr

/-- The seven steps of the market-bootstrap saga, in source order
(part_002 lines 233-400). -/
inductive SagaStep where
  | createSlab
  | createVault
  | initMarket
  | setOracleAuthority
  | pushOraclePrice
  | createMatcherCtx
  | initLp
deriving DecidableEq, Repr

/-- The full saga order. -/
def sagaOrder : List SagaStep :=
  [.createSlab, .createVault, .initMarket, .setOracleAuthority, .pushOraclePrice,
    .createMatcherCtx, .initLp]

/-- Result shape of createPercolatorMarket. -/
structure SagaResult where
  success : Bool
  slabAddress : Option Pubkey
  error : Option String
deriving DecidableEq, Repr

/-- createPercolatorMarket (part_002 lines 220-409), paired with the
ordered list of steps whose transaction was issued.  A throw in the
slab-creation, vault-creation or matcher-context step is caught by the
enclosing try/catch and returned as a failure; an InitMarket error
returns a failure; errors of SetOracleAuthority, PushOraclePrice and
InitLP are only logged as warnings and the saga continues.  No step is
ever compensated or re-issued. -/
def createPercolatorMarket (env : SagaEnv) : SagaResult × List SagaStep :=
  match env.createSlabThrow with
  | some m => (⟨false, none, some m⟩, [.createSlab])
  | none =>
    match env.createVaultThrow with
    | some m => (⟨false, none, some m⟩, [.createSlab, .createVault])
    | none =>
      match env.initMarketResult.error with
      | some e =>
        (⟨false, none, some ("InitMarket failed: " ++ e)⟩,
          [.createSlab, .createVault, .initMarket])
      | none =>
        match env.createMatcherThrow with
        | some m =>
          (⟨false, none, some m⟩,
            [.createSlab, .createVault, .initMarket, .setOracleAuthority,
              .pushOraclePrice, .createMatcherCtx])
        | none => (⟨true, some env.slabPubkey, none⟩, sagaOrder)

-- ============================================================================
-- Shared sample data and helper lemmas
-- ============================================================================

/-- A sample market configuration for concrete evaluations. -/
def sampleConfig : MarketConfig := ⟨21, 22, 23, 24, 25, 500, 1000, 10, 4096⟩

/-- A sample engine state for concrete evaluations. -/
def sampleEngine : EngineState := ⟨0, 0, 1000000⟩

/-- A trading account with capital 1,000,000, position size 2,000,000
and entry price 1,000,000 (the end-to-end scenario of spec 8). -/
def acctTrader : Account := ⟨.user, 7, 1000000, 0, 2000000, 1000000, 0, 0⟩

/-- A used account slot with no open position. -/
def acctFlat : Account := ⟨.user, 8, 500000, 0, 0, 0, 0, 0⟩

/-- A sample slab: slots 0 and 2 used, slot 1 free. -/
def sampleSlab : Slab :=
  ⟨sampleConfig, sampleEngine, [true, false, true], [acctTrader, default, acctFlat]⟩

/-- The slot indices of parseAllAccounts are strictly increasing. -/
theorem parseAllAccounts_pairwise_fst (s : Slab) :
    (parseAllAccounts s).Pairwise (fun x y => x.1 < y.1) := by
  unfold parseAllAccounts
  refine List.pairwise_filterMap.mpr ?_
  have h1 : (parseUsedIndices s).Pairwise (· < ·) := by
    unfold parseUsedIndices
    exact List.Pairwise.filter _ (List.pairwise_lt_range _)
  refine h1.imp ?_
  intro i j hij x hx y hy
  simp only [Option.mem_def, Option.map_eq_some'] at hx hy
  obtain ⟨a, _, rfl⟩ := hx
  obtain ⟨b, _, rfl⟩ := hy
  exact hij

/-- find? returns the first match: the list splits around the result
with no earlier element satisfying the predicate. -/
theorem find?_first {α : Type} (l : List α) (p : α → Bool) (a : α)
    (h : l.find? p = some a) :
    ∃ pre post, l = pre ++ a :: post ∧ ∀ y ∈ pre, ¬ p y := by
  rw [List.find?_eq_some] at h
  obtain ⟨hpa, pre, post, rfl, hpre⟩ := h
  exact ⟨pre, post, rfl, by simpa using hpre⟩

-- ============================================================================
-- Claim theorems
-- ============================================================================

/-- Claim C1: sendTransaction never throws and always yields the
uniform result shape: on successful confirmation the signature with a
null error; on a confirmed execution error the signature with the
error set from parseErrorFromLogs over the fetched transaction logs
(decoded name with hexadecimal code, and the hint when decodable) or
to the raw chain-reported error otherwise; and on any thrown
collaborator exception an empty signature with the exception message.
The seven conjuncts cover every possible environment, so totality is
exhaustive: sendTransaction is a total function into TxResult. -/
theorem sendTransaction_uniform_result :
    (∀ bh sig gt, sendTransaction ⟨.ok bh, .ok (), .ok sig, .ok none, gt⟩ =
      ⟨sig, none, none⟩)
  ∧ (∀ bh sig chainErr logsOpt,
      sendTransaction ⟨.ok bh, .ok (), .ok sig, .ok (some chainErr), .ok logsOpt⟩ =
        match parseErrorFromLogs (logsOpt.getD []) with
        | some parsed => ⟨sig, some (renderDecoded parsed), parsed.hint⟩
        | none => ⟨sig, some chainErr, none⟩)
  ∧ (∀ m s2 s3 s4 s5, sendTransaction ⟨.thrown m, s2, s3, s4, s5⟩ = ⟨"", some m, none⟩)
  ∧ (∀ bh m s3 s4 s5, sendTransaction ⟨.ok bh, .thrown m, s3, s4, s5⟩ = ⟨"", some m, none⟩)
  ∧ (∀ bh m s4 s5, sendTransaction ⟨.ok bh, .ok (), .thrown m, s4, s5⟩ = ⟨"", some m, none⟩)
  ∧ (∀ bh sig m s5, sendTransaction ⟨.ok bh, .ok (), .ok sig, .thrown m, s5⟩ =
      ⟨"", some m, none⟩)
  ∧ (∀ bh sig chainErr m,
      sendTransaction ⟨.ok bh, .ok (), .ok sig, .ok (some chainErr), .thrown m⟩ =
        ⟨"", some m, none⟩) := by
  refine ⟨?_, ?_, ?_, ?_, ?_, ?_, ?_⟩ <;> intros <;> rfl

/-- Claim C6: within one sendTransaction call the signed transaction
is submitted to the chain at most once — the trace of collaborator
calls contains at most one submit step, in every environment
(no automatic retry on a failed send or failed/errored
confirmation). -/
theorem sendTransaction_single_submit (env : SendEnv) :
    (sendTransactionTrace env).count SendStep.submitTx ≤ 1 := by
  rcases env with ⟨bh, st, sr, cf, tl⟩
  rcases bh with _ | _ <;> rcases st with _ | _ <;> rcases sr with _ | _ <;>
    rcases cf with (_ | _) | _ <;> simp only [sendTransactionTrace] <;> decide

/-- Claim C10: sendTransaction never modifies the client's cached
state: both cached fields are identical before and after the call,
whatever the outcome, and the returned result is exactly the
sendTransaction state machine's result. -/
theorem sendTransaction_cache_frame (senv : SendEnv) (s : ClientState) :
    (clientSendTransaction senv s).2.slabData = s.slabData ∧
    (clientSendTransaction senv s).2.marketConfig = s.marketConfig ∧
    (clientSendTransaction senv s).1 = sendTransaction senv :=
  ⟨rfl, rfl, rfl⟩

/-- Claim C5: every per-operation transaction builder returns a
transaction with exactly two instructions: the 400,000-unit
compute-budget set-compute-unit-limit instruction first, followed by
the single operation instruction addressed to the percolator
program. -/
theorem builders_two_instructions :
    (∀ env c w fp s, ∃ k d, (buildInitUserTx env c w fp s).1 =
      [Instruction.computeBudgetSetLimit 400000, Instruction.programIx c.programId k d])
  ∧ (∀ env c w i amt s, ∃ k d, (buildDepositTx env c w i amt s).1 =
      [Instruction.computeBudgetSetLimit 400000, Instruction.programIx c.programId k d])
  ∧ (∀ env c w i amt s, ∃ k d, (buildWithdrawTx env c w i amt s).1 =
      [Instruction.computeBudgetSetLimit 400000, Instruction.programIx c.programId k d])
  ∧ (∀ env c w ui li sz mp mc s, ∃ k d, (buildTradeCpiTx env c w ui li sz mp mc s).1 =
      [Instruction.computeBudgetSetLimit 400000, Instruction.programIx c.programId k d])
  ∧ (∀ env c w ui li sz lo s, ∃ k d, (buildTradeNoCpiTx env c w ui li sz lo s).1 =
      [Instruction.computeBudgetSetLimit 400000, Instruction.programIx c.programId k d])
  ∧ (∀ env c w ci s, ∃ k d, (buildKeeperCrankTx env c w ci s).1 =
      [Instruction.computeBudgetSetLimit 400000, Instruction.programIx c.programId k d])
  ∧ (∀ env c w i s, ∃ k d, (buildCloseAccountTx env c w i s).1 =
      [Instruction.computeBudgetSetLimit 400000, Instruction.programIx c.programId k d])
  ∧ (∀ c w sl mi va du args s, ∃ k d, (buildInitMarketTx c w sl mi va du args s).1 =
      [Instruction.computeBudgetSetLimit 400000, Instruction.programIx c.programId k d])
  ∧ (∀ c w sl mi va mp mc fp s, ∃ k d, (buildInitLpTx c w sl mi va mp mc fp s).1 =
      [Instruction.computeBudgetSetLimit 400000, Instruction.programIx c.programId k d])
  ∧ (∀ c w sl na s, ∃ k d, (buildSetOracleAuthorityTx c w sl na s).1 =
      [Instruction.computeBudgetSetLimit 400000, Instruction.programIx c.programId k d])
  ∧ (∀ c w sl pe ts s, ∃ k d, (buildPushOraclePriceTx c w sl pe ts s).1 =
      [Instruction.computeBudgetSetLimit 400000, Instruction.programIx c.programId k d])
  ∧ (∀ c w sl mi va amt s, ∃ k d, (buildTopUpInsuranceTx c w sl mi va amt s).1 =
      [Instruction.computeBudgetSetLimit 400000, Instruction.programIx c.programId k d]) := by
  refine ⟨?_, ?_, ?_, ?_, ?_, ?_, ?_, ?_, ?_, ?_, ?_, ?_⟩ <;> intros <;> exact ⟨_, _, rfl⟩

/-- Claim C8: every instruction encoding begins with its kind's
registered one-byte discriminant (the first byte of the encoding is
the registered IX tag, for every argument struct), and the tag
assignment is injective — no two instruction kinds share a tag. -/
theorem encode_tags_unique :
    (∀ a : InitMarketArgs, (encodeInitMarket a).head? = some (IX_TAG IxKind.initMarket))
  ∧ (∀ a : InitUserArgs, (encodeInitUser a).head? = some (IX_TAG IxKind.initUser))
  ∧ (∀ a : InitLPArgs, (encodeInitLP a).head? = some (IX_TAG IxKind.initLP))
  ∧ (∀ a : DepositCollateralArgs,
      (encodeDepositCollateral a).head? = some (IX_TAG IxKind.depositCollateral))
  ∧ (∀ a : WithdrawCollateralArgs,
      (encodeWithdrawCollateral a).head? = some (IX_TAG IxKind.withdrawCollateral))
  ∧ (∀ a : TradeCpiArgs, (encodeTradeCpi a).head? = some (IX_TAG IxKind.tradeCpi))
  ∧ (∀ a : TradeNoCpiArgs, (encodeTradeNoCpi a).head? = some (IX_TAG IxKind.tradeNoCpi))
  ∧ (∀ a : KeeperCrankArgs, (encodeKeeperCrank a).head? = some (IX_TAG IxKind.keeperCrank))
  ∧ (∀ a : LiquidateAtOracleArgs,
      (encodeLiquidateAtOracle a).head? = some (IX_TAG IxKind.liquidateAtOracle))
  ∧ (∀ a : CloseAccountArgs, (encodeCloseAccount a).head? = some (IX_TAG IxKind.closeAccount))
  ∧ (∀ a : TopUpInsuranceArgs,
      (encodeTopUpInsurance a).head? = some (IX_TAG IxKind.topUpInsurance))
  ∧ (∀ a : SetOracleAuthorityArgs,
      (encodeSetOracleAuthority a).head? = some (IX_TAG IxKind.setOracleAuthority))
  ∧ (∀ a : PushOraclePriceArgs,
      (encodePushOraclePrice a).head? = some (IX_TAG IxKind.pushOraclePrice))
  ∧ (∀ k k' : IxKind, IX_TAG k = IX_TAG k' ↔ k = k') := by
  refine ⟨?_, ?_, ?_, ?_, ?_, ?_, ?_, ?_, ?_, ?_, ?_, ?_, ?_, ?_⟩
  all_goals first
    | (intro a; rfl)
    | decide

/-- Claim C7: every PercolatorClient operation either leaves the
cached pair (slabData, marketConfig) untouched or replaces it
wholesale with the freshly fetched buffer and its parse — there is no
partial update — and consequently the coherence invariant
(marketConfig is exactly the parse of the cached buffer, both absent
initially) is preserved by every operation. -/
theorem client_cache_coherence (env : FetchEnv) (c : ClientCfg) (op : ClientOp)
    (s : ClientState) :
    (clientStep env c op s = s ∨
      clientStep env c op s = ⟨some env.fetched, some (parseConfig env.fetched)⟩) ∧
    (cacheCoherent s → cacheCoherent (clientStep env c op s)) := by
  have h : clientStep env c op s = s ∨
      clientStep env c op s = ⟨some env.fetched, some (parseConfig env.fetched)⟩ := by
    cases op <;>
      first
        | exact Or.inl rfl
        | exact Or.inr rfl
        | (simp only [clientStep, getMarketConfig, getEngineState, buildInitUserTx,
            buildDepositTx, buildWithdrawTx, buildKeeperCrankTx, buildCloseAccountTx]
           split
           · exact Or.inr rfl
           · exact Or.inl rfl)
  refine ⟨h, fun hc => ?_⟩
  rcases h with h | h <;> rw [h]
  · exact hc
  · rfl

/-- Witness for C7: the invariant holds of the initial state and is
carried through a concrete operation. -/
theorem client_cache_coherence_witness :
    cacheCoherent initialClientState ∧
    cacheCoherent (clientStep ⟨sampleSlab⟩ ⟨1, 2⟩ ClientOp.getMarketInfoOp initialClientState) :=
  ⟨rfl, (client_cache_coherence ⟨sampleSlab⟩ ⟨1, 2⟩ ClientOp.getMarketInfoOp
    initialClientState).2 rfl⟩

/-- A client state whose cache is already populated. -/
def warmState : ClientState := ⟨some sampleSlab, some (parseConfig sampleSlab)⟩

/-- Counterexample to claim C3 as stated: with a populated cache,
getMarketInfo, findUserAccount and getAllPositions each still perform
a network fetch on every call, so a cached copy does not prevent a
silent re-fetch for these accessors. -/
theorem accessor_refetch_counterexample :
    warmState.slabData ≠ none ∧ warmState.marketConfig ≠ none ∧
    (getMarketInfo ⟨sampleSlab⟩ warmState).2.2 = 1 ∧
    (findUserAccount ⟨sampleSlab⟩ 7 warmState).2.2 = 1 ∧
    (getAllPositions ⟨sampleSlab⟩ warmState).2.2 = 1 := by
  refine ⟨?_, ?_, rfl, rfl, rfl⟩ <;> simp [warmState]

/-- Claim C3 (amended): getMarketConfig and getEngineState fetch
lazily — a fetch happens exactly when the respective cached field is
absent — while getMarketInfo, findUserAccount and getAllPositions
re-fetch the slab unconditionally on every call. -/
theorem accessor_fetch_discipline (env : FetchEnv) (s : ClientState) (owner : Pubkey) :
    (getMarketConfig env s).2.2 = (if s.marketConfig.isNone then 1 else 0)
  ∧ (getEngineState env s).2.2 = (if s.slabData.isNone then 1 else 0)
  ∧ (getMarketInfo env s).2.2 = 1
  ∧ (findUserAccount env owner s).2.2 = 1
  ∧ (getAllPositions env s).2.2 = 1 := by
  refine ⟨?_, ?_, rfl, rfl, rfl⟩ <;>
    simp only [getMarketConfig, getEngineState] <;> split <;> rfl

/-- A saga environment in which everything succeeds except the
SetOracleAuthority transaction, which fails with a decoded program
error. -/
def sagaEnvOracleFails : SagaEnv :=
  ⟨41, 42, none, none, ⟨"sigInitMarket", none, none⟩,
    ⟨"", some "SlabWrongAdmin (0x5)", none⟩, ⟨"sigPushPrice", none, none⟩, none,
    ⟨"sigInitLp", none, none⟩⟩

/-- Counterexample to claim C2 as stated: when the SetOracleAuthority
step fails, later steps (PushOraclePrice, matcher-context creation,
InitLP) are still issued and the saga returns success with no error,
rather than stopping and returning the failing step's error. -/
theorem saga_stops_counterexample :
    sagaEnvOracleFails.setOracleResult.error = some "SlabWrongAdmin (0x5)"
  ∧ (createPercolatorMarket sagaEnvOracleFails).1.success = true
  ∧ (createPercolatorMarket sagaEnvOracleFails).1.error = none
  ∧ SagaStep.pushOraclePrice ∈ (createPercolatorMarket sagaEnvOracleFails).2
  ∧ SagaStep.initLp ∈ (createPercolatorMarket sagaEnvOracleFails).2 := by
  refine ⟨rfl, rfl, rfl, ?_, ?_⟩ <;>
    simp [createPercolatorMarket, sagaEnvOracleFails, sagaOrder]

/-- Claim C2 (amended): the saga stops at the first failure and
returns its error only for the slab-creation, vault-creation and
matcher-context-creation steps (whose throw aborts the run) and for an
InitMarket error; failures of SetOracleAuthority, PushOraclePrice and
InitLP are only logged as warnings — the saga continues, issues all
remaining steps and still returns success.  No step is issued twice and
the issued steps always form a prefix of the fixed order, and no
compensation/rollback of completed steps exists. -/
theorem saga_failure_discipline :
    (∀ sp mc m o4 r3 r4 r5 o6 r7,
      createPercolatorMarket ⟨sp, mc, some m, o4, r3, r4, r5, o6, r7⟩ =
        (⟨false, none, some m⟩, [SagaStep.createSlab]))
  ∧ (∀ sp mc m r3 r4 r5 o6 r7,
      createPercolatorMarket ⟨sp, mc, none, some m, r3, r4, r5, o6, r7⟩ =
        (⟨false, none, some m⟩, [SagaStep.createSlab, SagaStep.createVault]))
  ∧ (∀ sp mc sg hi e r4 r5 o6 r7,
      createPercolatorMarket ⟨sp, mc, none, none, ⟨sg, some e, hi⟩, r4, r5, o6, r7⟩ =
        (⟨false, none, some ("InitMarket failed: " ++ e)⟩,
          [SagaStep.createSlab, SagaStep.createVault, SagaStep.initMarket]))
  ∧ (∀ sp mc sg hi r4 r5 m r7,
      createPercolatorMarket ⟨sp, mc, none, none, ⟨sg, none, hi⟩, r4, r5, some m, r7⟩ =
        (⟨false, none, some m⟩,
          [SagaStep.createSlab, SagaStep.createVault, SagaStep.initMarket,
            SagaStep.setOracleAuthority, SagaStep.pushOraclePrice, SagaStep.createMatcherCtx]))
  ∧ (∀ sp mc sg hi r4 r5 r7,
      createPercolatorMarket ⟨sp, mc, none, none, ⟨sg, none, hi⟩, r4, r5, none, r7⟩ =
        (⟨true, some sp, none⟩, sagaOrder))
  ∧ (∀ env : SagaEnv, (createPercolatorMarket env).2.Nodup ∧
      ∃ rest, (createPercolatorMarket env).2 ++ rest = sagaOrder) := by
  refine ⟨fun _ _ _ _ _ _ _ _ _ => rfl, fun _ _ _ _ _ _ _ _ => rfl,
    fun _ _ _ _ _ _ _ _ _ => rfl, fun _ _ _ _ _ _ _ _ => rfl,
    fun _ _ _ _ _ _ _ => rfl, ?_⟩
  intro env
  rcases env with ⟨sp, mc, o3, o4, r3, r4, r5, o6, r7⟩
  rcases o3 with _ | m
  · rcases o4 with _ | m
    · rcases r3 with ⟨sg, e3, h3⟩
      rcases e3 with _ | e
      · rcases o6 with _ | m
        · simp only [createPercolatorMarket]
          exact ⟨by decide, _, rfl⟩
        · simp only [createPercolatorMarket]
          exact ⟨by decide, _, rfl⟩
      · simp only [createPercolatorMarket]
        exact ⟨by decide, _, rfl⟩
    · simp only [createPercolatorMarket]
      exact ⟨by decide, _, rfl⟩
  · simp only [createPercolatorMarket]
    exact ⟨by decide, _, rfl⟩

/-- Claim C4: getAllPositions returns exactly the used slots with
nonzero position size (slots with positionSize 0 are filtered out,
nothing else is dropped, fields are copied from the parsed account),
each position's leverage is (|positionSize| * entryPrice / 1e6) /
capital when capital is positive and that notional is positive and 0
otherwise, and in particular the account with capital 1,000,000,
position size 2,000,000 and entry price 1,000,000 has leverage 2. -/
theorem getAllPositions_spec (env : FetchEnv) (s : ClientState) :
    (∀ p ∈ (getAllPositions env s).1,
      p.positionSize ≠ 0 ∧
      ∃ a, (p.index, a) ∈ parseAllAccounts env.fetched ∧
        a.kind = p.kind ∧ a.owner = p.owner ∧ a.capital = p.capital ∧ a.pnl = p.pnl ∧
        a.positionSize = p.positionSize ∧ a.entryPrice = p.entryPrice)
  ∧ (∀ i a, (i, a) ∈ parseAllAccounts env.fetched → a.positionSize ≠ 0 →
      ∃ p ∈ (getAllPositions env s).1, p.index = i ∧ p.positionSize = a.positionSize)
  ∧ (∀ p ∈ (getAllPositions env s).1,
      p.leverage =
        if 0 < p.capital ∧ 0 < Int.tdiv (abs128 p.positionSize * p.entryPrice) 1000000 then
          ((Int.tdiv (abs128 p.positionSize * p.entryPrice) 1000000 : Int) : ℚ) /
            (p.capital : ℚ)
        else 0)
  ∧ (getAllPositions ⟨sampleSlab⟩ initialClientState).1.map PositionInfo.leverage = [2] := by
  refine ⟨?_, ?_, ?_, ?_⟩
  · intro p hp
    simp only [getAllPositions, refreshSlab, positionsOf, List.mem_map] at hp
    obtain ⟨a, ha, rfl⟩ := hp
    rw [List.mem_filter] at ha
    refine ⟨by simpa using ha.2, a.2, ?_, rfl, rfl, rfl, rfl, rfl, rfl⟩
    simpa using ha.1
  · intro i a hmem hps
    refine ⟨_, List.mem_map.mpr ⟨(i, a), List.mem_filter.mpr ⟨hmem, by simpa using hps⟩, rfl⟩,
      rfl, rfl⟩
  · intro p hp
    simp only [getAllPositions, refreshSlab, positionsOf, List.mem_map] at hp
    obtain ⟨a, _, rfl⟩ := hp
    by_cases hep : 0 < a.2.entryPrice
    · simp [hep]
    · have habs : 0 ≤ abs128 a.2.positionSize := by unfold abs128; split <;> omega
      have hx : abs128 a.2.positionSize * a.2.entryPrice ≤ 0 :=
        mul_nonpos_iff.mpr (Or.inl ⟨habs, le_of_not_lt hep⟩)
      have hN : Int.tdiv (abs128 a.2.positionSize * a.2.entryPrice) 1000000 ≤ 0 := by
        have h2 : 0 ≤ Int.tdiv (-(abs128 a.2.positionSize * a.2.entryPrice)) 1000000 :=
          Int.tdiv_nonneg (by omega) (by norm_num)
        rw [Int.neg_tdiv] at h2
        linarith
      simp [hep, not_lt.mpr hN]
  · have hacc : parseAllAccounts sampleSlab = [(0, acctTrader), (2, acctFlat)] := by decide
    have ht : Int.tdiv (abs128 2000000 * 1000000) 1000000 = 2000000 := by decide
    have ht2 : Int.tdiv (2000000000000 : Int) 1000000 = 2000000 := by decide
    simp only [getAllPositions, refreshSlab, positionsOf, hacc]
    norm_num [acctTrader, acctFlat, ht, ht2, abs128]

/-- Witness for C4: the used slot 0 of the sample slab holds the
trading account with nonzero position size, and the theorem yields the
corresponding returned position. -/
theorem getAllPositions_spec_witness :
    (0, acctTrader) ∈ parseAllAccounts sampleSlab ∧ acctTrader.positionSize ≠ 0 ∧
    ∃ p ∈ (getAllPositions ⟨sampleSlab⟩ initialClientState).1,
      p.index = 0 ∧ p.positionSize = 2000000 := by
  refine ⟨by decide, by decide, ?_⟩
  have h := (getAllPositions_spec ⟨sampleSlab⟩ initialClientState).2.1 0 acctTrader
    (by decide) (by decide)
  simpa [acctTrader] using h

/-- Claim C9: findUserAccount re-fetches the slab (one fetch, cache
replaced with the fresh snapshot) and returns the first used slot in
parseAllAccounts order — i.e. the lowest slot index — whose account
owner equals the given key, with no filter on the account kind; it
returns null exactly when no used slot is owned by that key. -/
theorem findUserAccount_spec (env : FetchEnv) (owner : Pubkey) (s : ClientState) :
    (findUserAccount env owner s).2.2 = 1
  ∧ (findUserAccount env owner s).2.1 =
      ⟨some env.fetched, some (parseConfig env.fetched)⟩
  ∧ (∀ i a, (findUserAccount env owner s).1 = some (i, a) →
      a.owner = owner ∧
      ∃ pre post, parseAllAccounts env.fetched = pre ++ (i, a) :: post ∧
        ∀ y ∈ pre, y.2.owner ≠ owner)
  ∧ (∀ i a, (findUserAccount env owner s).1 = some (i, a) →
      ∀ j b, (j, b) ∈ parseAllAccounts env.fetched → b.owner = owner → i ≤ j)
  ∧ ((findUserAccount env owner s).1 = none →
      ∀ y ∈ parseAllAccounts env.fetched, y.2.owner ≠ owner) := by
  have hdef : (findUserAccount env owner s).1 =
      (parseAllAccounts env.fetched).find? (fun a => a.2.owner == owner) := rfl
  refine ⟨rfl, rfl, ?_, ?_, ?_⟩
  · intro i a h
    rw [hdef] at h
    have hp := List.find?_some h
    obtain ⟨pre, post, heq, hpre⟩ := find?_first _ _ _ h
    refine ⟨by simpa using hp, pre, post, heq, ?_⟩
    intro y hy
    simpa using hpre y hy
  · intro i a h j b hjb hown
    rw [hdef] at h
    obtain ⟨pre, post, heq, hpre⟩ := find?_first _ _ _ h
    have hpw := parseAllAccounts_pairwise_fst env.fetched
    rw [heq] at hpw hjb
    rcases List.mem_append.mp hjb with hj | hj
    · exact absurd hown (by simpa using hpre _ hj)
    · rcases List.mem_cons.mp hj with hj | hj
      · simp only [Prod.mk.injEq] at hj
        exact hj.1.symm.le
      · have h2 := (List.pairwise_append.mp hpw).2.1
        have h3 := (List.pairwise_cons.mp h2).1 _ hj
        exact le_of_lt h3
  · intro h y hy
    rw [hdef, List.find?_eq_none] at h
    simpa using h y hy

/-- Witness for C9: on the sample slab the account at slot 0 owned by
key 7 is found (owner matches), and a lookup for an owner no slot has
returns null with no owned slot. -/
theorem findUserAccount_spec_witness :
    acctTrader.owner = 7 ∧ (∀ y ∈ parseAllAccounts sampleSlab, y.2.owner ≠ 99) := by
  constructor
  · exact ((findUserAccount_spec ⟨sampleSlab⟩ 7 initialClientState).2.2.1 0 acctTrader
      (by decide)).1
  · exact (findUserAccount_spec ⟨sampleSlab⟩ 99 initialClientState).2.2.2.2 (by decide)

end Percolator
